import Mathlib

/-!
Verification of the minidump parser and memory reader
(src/minidump/src/minidump.cpp, src/minidump/include/minidump/minidump.hpp).

The file is modelled as a list of bytes (`List Nat`, each entry a byte value).
All machine integers are `Nat` with explicit `% 2 ^ 64` where the C++ `uint64_t`
arithmetic can wrap.  A read past end-of-file yields zero bytes, matching the
zero-initialized `std::vector` buffer that `memory_segment::read` returns
without checking the stream state.  The stateful `std::ifstream` cursor used by
the stream decoders is modelled by `FState` (position plus a sticky fail flag:
`seekg`/`read` on a failed stream are no-ops, exactly as in C++ where a set
failbit makes the input sentry fail).
-/

set_option autoImplicit false

namespace Minidump

/-- 2^64, the modulus of `uint64_t` arithmetic. -/
def U64 : Nat := 2 ^ 64

/-- Little-endian value of a byte list (first byte is least significant),
as produced by `memcpy` into an integer on a little-endian host. -/
def leVal (bs : List Nat) : Nat := bs.foldr (fun b acc => b + 256 * acc) 0

/-- The `n` bytes of `file` starting at `pos` (fewer if the file is shorter). -/
def bytesAt (file : List Nat) (pos n : Nat) : List Nat := (file.drop pos).take n

/-- Little-endian `uint8_t` at `pos` (0 beyond end-of-file). -/
def u8at (file : List Nat) (pos : Nat) : Nat := file.getD pos 0

/-- Little-endian `uint16_t` at `pos`. -/
def u16at (file : List Nat) (pos : Nat) : Nat := leVal (bytesAt file pos 2)

/-- Little-endian `uint32_t` at `pos`. -/
def u32at (file : List Nat) (pos : Nat) : Nat := leVal (bytesAt file pos 4)

/-- Little-endian `uint64_t` at `pos`. -/
def u64at (file : List Nat) (pos : Nat) : Nat := leVal (bytesAt file pos 8)

/-- Little-endian encoding of a value into 4 bytes (used to build concrete
test files; inverse of `u32at` for values below 2^32). -/
def u32le (v : Nat) : List Nat :=
  [v % 256, v / 256 % 256, v / 256 ^ 2 % 256, v / 256 ^ 3 % 256]

/-- Little-endian encoding of a value into 8 bytes. -/
def u64le (v : Nat) : List Nat :=
  [v % 256, v / 256 % 256, v / 256 ^ 2 % 256, v / 256 ^ 3 % 256,
   v / 256 ^ 4 % 256, v / 256 ^ 5 % 256, v / 256 ^ 6 % 256, v / 256 ^ 7 % 256]

/-- Little-endian encoding of a value into 2 bytes. -/
def u16le (v : Nat) : List Nat := [v % 256, v / 256 % 256]

/-! ### Record layouts (minidump.hpp) -/

/-- `minidump_header` (32 bytes on disk). -/
structure Header where
  signature : Nat
  version : Nat
  implementationVersion : Nat
  numberOfStreams : Nat
  streamDirectoryRva : Nat
  checksum : Nat
  timeDateStamp : Nat
  flags : Nat
deriving Repr, DecidableEq

/-- `minidump_header::expected_signature` (`'MDMP'`). -/
def expectedSignature : Nat := 0x504D444D

/-- `minidump_header::is_valid`: signature matches and the stream count is
nonzero. -/
def Header.isValid (h : Header) : Bool :=
  decide (h.signature = expectedSignature ∧ 0 < h.numberOfStreams)

/-- `directory` (12 bytes on disk). -/
structure Dir where
  streamType : Nat
  dataSize : Nat
  rva : Nat
deriving Repr, DecidableEq

/-- `thread_info` (40 bytes on disk). -/
structure Thread where
  threadId : Nat
  suspendCount : Nat
  priorityClassValue : Nat
  priorityValue : Nat
  teb : Nat
  stackStartRva : Nat
  stackSize : Nat
  contextRva : Nat
  contextSize : Nat
deriving Repr, DecidableEq

/-- `module_info`: the fields covered by the 108-byte raw read, plus the
eagerly resolved name (the raw bytes of the length-prefixed name block;
`none` when the name was absent or its indirect read failed). -/
structure ModuleR where
  baseOfImage : Nat
  sizeOfImage : Nat
  checksum : Nat
  timeDateStamp : Nat
  moduleNameRva : Nat
  name : Option (List Nat)
deriving Repr, DecidableEq

/-- `memory_segment`: (start virtual address, size, start file offset). -/
structure Seg where
  start : Nat
  size : Nat
  fileOff : Nat
deriving Repr, DecidableEq

/-- `memory_segment::end_virtual_address`: `start + size` in `uint64_t`
arithmetic (wraps at 2^64). -/
def Seg.endVA (s : Seg) : Nat := (s.start + s.size) % U64

/-- `memory_segment::contains`: `start ≤ addr < end_virtual_address()`. -/
def Seg.contains (s : Seg) (addr : Nat) : Bool :=
  decide (s.start ≤ addr ∧ addr < s.endVA)

/-- `memory_region` (decoded from the 48-byte `memory_info_entry`). -/
structure Region where
  baseAddress : Nat
  allocationBase : Nat
  allocationProtect : Nat
  regionSize : Nat
  state : Nat
  protect : Nat
  type : Nat
deriving Repr, DecidableEq

/-- `system_info` (48 bytes on disk). -/
structure SysInfo where
  processorArchitecture : Nat
  processorLevel : Nat
  processorRevision : Nat
  numberOfProcessors : Nat
  productType : Nat
  majorVersion : Nat
  minorVersion : Nat
  buildNumber : Nat
  platformId : Nat
  csdVersionRva : Nat
  suiteMask : Nat
  feature0 : Nat
  feature1 : Nat
deriving Repr, DecidableEq

/-- `exception_info` (168 bytes on disk). -/
structure ExcInfo where
  threadId : Nat
  exceptionCode : Nat
  exceptionFlags : Nat
  exceptionRecord : Nat
  exceptionAddress : Nat
  numberParameters : Nat
  exceptionInformation : List Nat
  contextRva : Nat
  contextSize : Nat
deriving Repr, DecidableEq

/-- `misc_info` (44 bytes on disk). -/
structure MiscInfo where
  sizeOfInfo : Nat
  flags1 : Nat
  processId : Nat
  processCreateTime : Nat
  processUserTime : Nat
  processKernelTime : Nat
  processorMaxMhz : Nat
  processorCurrentMhz : Nat
  processorMhzLimit : Nat
  processorMaxIdleState : Nat
  processorCurrentIdleState : Nat
deriving Repr, DecidableEq

/-- Modelled from the spec: `handle_descriptor` is used by
`parse_handle_data_stream` but its declaration is not among the sources under
src/ (the header only reaches `misc_info`).  Field offsets follow the standard
Windows minidump handle descriptor that the code's fixed 32-byte read and
`type_name_rva`/`object_name_rva` accesses imply. -/
structure HandleR where
  handleValue : Nat
  typeNameRva : Nat
  objectNameRva : Nat
  attributes : Nat
  grantedAccess : Nat
  handleCount : Nat
  pointerCount : Nat
  typeName : Option (List Nat)
  objectName : Option (List Nat)
deriving Repr, DecidableEq

/-- The decoded snapshot held by `minidump_file`. -/
structure Snapshot where
  header : Header
  directories : List Dir
  threads : List Thread
  modules : List ModuleR
  segments : List Seg
  regions : List Region
  sysInfo : Option SysInfo
  excInfo : Option ExcInfo
  miscInfo : Option MiscInfo
  handles : List HandleR
deriving Repr, DecidableEq

/-- The freshly constructed `minidump_file` before parsing. -/
def emptySnap : Snapshot :=
  ⟨⟨0, 0, 0, 0, 0, 0, 0, 0⟩, [], [], [], [], [], none, none, none, []⟩

/-! ### Stateful stream cursor (std::ifstream) -/

/-- The decode cursor: position plus the sticky failbit. -/
structure FState where
  pos : Nat
  failed : Bool
deriving Repr, DecidableEq

/-- `seekg`: a no-op on a failed stream (the input sentry fails when failbit
is set and the position is not changed). -/
def fseek (s : FState) (p : Nat) : FState :=
  if s.failed then s else ⟨p, false⟩

/-- `read(buf, n)`: on a failed stream nothing happens; a read past
end-of-file sets failbit and leaves the (zero-initialized) buffer bytes
unread; otherwise it returns the bytes and advances. -/
def fread (file : List Nat) (s : FState) (n : Nat) : List Nat × FState :=
  if s.failed then (List.replicate n 0, s)
  else if s.pos + n ≤ file.length then (bytesAt file s.pos n, ⟨s.pos + n, false⟩)
  else (List.replicate n 0, ⟨file.length, true⟩)

/-- Field of a fixed-size record buffer: little-endian `uint32_t` at `off`. -/
def recU32 (rec : List Nat) (off : Nat) : Nat := leVal ((rec.drop off).take 4)

/-- Field of a fixed-size record buffer: little-endian `uint64_t` at `off`. -/
def recU64 (rec : List Nat) (off : Nat) : Nat := leVal ((rec.drop off).take 8)

/-! ### Header and directory parsing (minidump.cpp) -/

/-- The header record decoded from the first 32 bytes. -/
def decodeHeader (file : List Nat) : Header :=
  ⟨u32at file 0, u16at file 4, u16at file 6, u32at file 8,
   u32at file 12, u32at file 16, u32at file 20, u64at file 24⟩

/-- `minidump_file::parse_header`: read 32 bytes at offset 0; fail on a short
read or an invalid header. -/
def parseHeader (file : List Nat) : Option Header :=
  if 32 ≤ file.length then
    let h := decodeHeader file
    if h.isValid then some h else none
  else none

/-- One 12-byte directory entry at `pos`. -/
def decodeDir (file : List Nat) (pos : Nat) : Dir :=
  ⟨u32at file pos, u32at file (pos + 4), u32at file (pos + 8)⟩

/-- `minidump_file::parse_directories`: seek to `stream_directory_rva` and
read `number_of_streams` 12-byte entries, failing on the first short read. -/
def parseDirectories (file : List Nat) (h : Header) : Option (List Dir) :=
  if h.numberOfStreams = 0 then some []
  else if h.streamDirectoryRva + 12 * h.numberOfStreams ≤ file.length then
    some ((List.range h.numberOfStreams).map fun i =>
      decodeDir file (h.streamDirectoryRva + 12 * i))
  else none

/-! ### Typed stream decoders (minidump.cpp) -/

/-- One 40-byte `thread_info` record at `pos`. -/
def decodeThread (file : List Nat) (pos : Nat) : Thread :=
  ⟨u32at file pos, u32at file (pos + 4), u32at file (pos + 8),
   u32at file (pos + 12), u64at file (pos + 16), u32at file (pos + 24),
   u32at file (pos + 28), u32at file (pos + 32), u32at file (pos + 36)⟩

/-- The thread-list loop: `number_of_threads` sequential 40-byte reads, any
short read failing the stream. -/
def threadLoop (file : List Nat) : Nat → Nat → Option (List Thread)
  | 0, _ => some []
  | k + 1, pos =>
    if pos + 40 ≤ file.length then
      (threadLoop file k (pos + 40)).map (decodeThread file pos :: ·)
    else none

/-- `minidump_file::parse_thread_list_stream`. -/
def parseThreadList (file : List Nat) (d : Dir) (snap : Snapshot) :
    Option Snapshot :=
  if d.rva + 4 ≤ file.length then
    (threadLoop file (u32at file d.rva) (d.rva + 4)).map
      fun ts => {snap with threads := ts}
  else none

/-- The `threads_.resize(number_of_threads)` argument: the element count the
decoder allocates before reading any entry (no ceiling is applied). -/
def threadListAllocation (file : List Nat) (d : Dir) : Option Nat :=
  if d.rva + 4 ≤ file.length then some (u32at file d.rva) else none

/-- The indirect name read shared by the module and handle decoders: save the
cursor, seek to the absolute offset, read a 4-byte length, read that many
bytes when `0 < length < 2048` and the length read succeeded, then seek back
to the saved position.  All cursor operations honour the sticky failbit, so a
failed inner read leaves the stream failed and the final seek restores
nothing. -/
def readNameIndirect (file : List Nat) (s : FState) (rva : Nat) :
    Option (List Nat) × FState :=
  let saved := s.pos
  let s2 := fseek s rva
  let (lenB, s3) := fread file s2 4
  let len := leVal lenB
  if s3.failed = false ∧ 0 < len ∧ len < 2048 then
    let (nb, s4) := fread file s3 len
    ((if s4.failed then none else some nb), fseek s4 saved)
  else (none, fseek s3 saved)

/-- The module-list loop: each iteration reads a 108-byte record (failure
aborts the whole stream), then resolves the name when `module_name_rva ≠ 0`. -/
def moduleLoop (file : List Nat) : Nat → FState → Option (List ModuleR)
  | 0, _ => some []
  | k + 1, s =>
    let (buf, s1) := fread file s 108
    if s1.failed then none
    else
      let nameRva := recU32 buf 20
      let m0 : ModuleR :=
        ⟨recU64 buf 0, recU32 buf 8, recU32 buf 12, recU32 buf 16, nameRva, none⟩
      if nameRva = 0 then (moduleLoop file k s1).map (m0 :: ·)
      else
        let (nm, s5) := readNameIndirect file s1 nameRva
        (moduleLoop file k s5).map ({m0 with name := nm} :: ·)

/-- `minidump_file::parse_module_list_stream`. -/
def parseModuleList (file : List Nat) (d : Dir) (snap : Snapshot) :
    Option Snapshot :=
  if d.rva + 4 ≤ file.length then
    (moduleLoop file (u32at file d.rva) ⟨d.rva + 4, false⟩).map
      fun ms => {snap with modules := ms}
  else none

/-- The `modules_.resize(number_of_modules)` argument: the element count the
decoder allocates before reading any entry (no ceiling is applied). -/
def moduleListAllocation (file : List Nat) (d : Dir) : Option Nat :=
  if d.rva + 4 ≤ file.length then some (u32at file d.rva) else none

/-- The memory64-list loop: up to `min count 10000` 16-byte
`(start_va, size)` pairs; a short read breaks out, pairs with `size = 0` are
dropped, and the running file offset advances by `size` in `uint64_t`
arithmetic. -/
def mem64Loop (file : List Nat) : Nat → Nat → Nat → List Seg
  | 0, _, _ => []
  | k + 1, pos, cur =>
    if pos + 16 ≤ file.length then
      let sva := u64at file pos
      let sz := u64at file (pos + 8)
      if 0 < sz then ⟨sva, sz, cur⟩ :: mem64Loop file k (pos + 16) ((cur + sz) % U64)
      else mem64Loop file k (pos + 16) cur
    else []

/-- The segments decoded by one memory64-list stream: the loop seeded with the
stream's declared count (capped at 10000) and `base_rva`. -/
def parsedMem64Segs (file : List Nat) (d : Dir) : List Seg :=
  mem64Loop file (min (u64at file d.rva) 10000) (d.rva + 16) (u64at file (d.rva + 8))

/-- `minidump_file::parse_memory64_list_stream`. -/
def parseMemory64List (file : List Nat) (d : Dir) (snap : Snapshot) :
    Option Snapshot :=
  if d.rva + 16 ≤ file.length then
    some {snap with segments := snap.segments ++ parsedMem64Segs file d}
  else none

/-- One 48-byte `memory_info_entry` at `pos`, narrowed to `memory_region`. -/
def decodeRegion (file : List Nat) (pos : Nat) : Region :=
  ⟨u64at file pos, u64at file (pos + 8), u32at file (pos + 16),
   u64at file (pos + 24), u32at file (pos + 32), u32at file (pos + 36),
   u32at file (pos + 40)⟩

/-- The memory-info-list loop: up to `min count 10000` 48-byte entries; a
short read breaks out. -/
def regionLoop (file : List Nat) : Nat → Nat → List Region
  | 0, _ => []
  | k + 1, pos =>
    if pos + 48 ≤ file.length then decodeRegion file pos :: regionLoop file k (pos + 48)
    else []

/-- `minidump_file::parse_memory_info_list_stream`: the declared entry size
must equal `sizeof(memory_info_entry)` (48). -/
def parseMemoryInfoList (file : List Nat) (d : Dir) (snap : Snapshot) :
    Option Snapshot :=
  if d.rva + 16 ≤ file.length then
    if u32at file (d.rva + 4) = 48 then
      some {snap with regions :=
        snap.regions ++ regionLoop file (min (u64at file (d.rva + 8)) 10000) (d.rva + 16)}
    else none
  else none

/-- `minidump_file::parse_system_info_stream`: one 48-byte record. -/
def parseSystemInfo (file : List Nat) (d : Dir) (snap : Snapshot) :
    Option Snapshot :=
  if d.rva + 48 ≤ file.length then
    let si : SysInfo :=
      ⟨u16at file d.rva, u16at file (d.rva + 2), u16at file (d.rva + 4),
       u8at file (d.rva + 6), u8at file (d.rva + 7), u32at file (d.rva + 8),
       u32at file (d.rva + 12), u32at file (d.rva + 16), u32at file (d.rva + 20),
       u32at file (d.rva + 24), u16at file (d.rva + 28), u64at file (d.rva + 32),
       u64at file (d.rva + 40)⟩
    some {snap with sysInfo := some si}
  else none

/-- `minidump_file::parse_exception_stream`: one 168-byte record. -/
def parseException (file : List Nat) (d : Dir) (snap : Snapshot) :
    Option Snapshot :=
  if d.rva + 168 ≤ file.length then
    let ei : ExcInfo :=
      ⟨u32at file d.rva, u32at file (d.rva + 8), u32at file (d.rva + 12),
       u64at file (d.rva + 16), u64at file (d.rva + 24), u32at file (d.rva + 32),
       (List.range 15).map (fun i => u64at file (d.rva + 40 + 8 * i)),
       u32at file (d.rva + 160), u32at file (d.rva + 164)⟩
    some {snap with excInfo := some ei}
  else none

/-- `minidump_file::parse_misc_info_stream`: one 44-byte record. -/
def parseMiscInfo (file : List Nat) (d : Dir) (snap : Snapshot) :
    Option Snapshot :=
  if d.rva + 44 ≤ file.length then
    let mi : MiscInfo :=
      ⟨u32at file d.rva, u32at file (d.rva + 4), u32at file (d.rva + 8),
       u32at file (d.rva + 12), u32at file (d.rva + 16), u32at file (d.rva + 20),
       u32at file (d.rva + 24), u32at file (d.rva + 28), u32at file (d.rva + 32),
       u32at file (d.rva + 36), u32at file (d.rva + 40)⟩
    some {snap with miscInfo := some mi}
  else none

/-- The handle-data loop: `number_of_descriptors` iterations (no ceiling);
each reads a 32-byte descriptor (a short read breaks out, keeping the handles
collected so far) and resolves the two indirect names. -/
def handleLoop (file : List Nat) : Nat → FState → List HandleR
  | 0, _ => []
  | k + 1, s =>
    let (buf, s1) := fread file s 32
    if s1.failed then []
    else
      let tRva := recU32 buf 8
      let oRva := recU32 buf 12
      let (typN, s2) := if tRva = 0 then (none, s1) else readNameIndirect file s1 tRva
      let (objN, s3) := if oRva = 0 then (none, s2) else readNameIndirect file s2 oRva
      ⟨recU64 buf 0, tRva, oRva, recU32 buf 16, recU32 buf 20, recU32 buf 24,
       recU32 buf 28, typN, objN⟩ :: handleLoop file k s3

/-- Modelled from the spec: `minidump_file::parse_handle_data_stream`; its
`handle_data_stream_header` type is not declared among the sources under src/,
so the standard Windows 16-byte header (descriptor count at offset 8) is
assumed.  No claim depends on this layout. -/
def parseHandleData (file : List Nat) (d : Dir) (snap : Snapshot) :
    Option Snapshot :=
  if d.rva + 16 ≤ file.length then
    some {snap with handles :=
      snap.handles ++ handleLoop file (u32at file (d.rva + 8)) ⟨d.rva + 16, false⟩}
  else none

/-- `minidump_file::parse_streams` dispatch: route one directory entry to its
decoder by stream-type tag; unknown tags are skipped. -/
def parseStream (file : List Nat) (d : Dir) (snap : Snapshot) : Option Snapshot :=
  if d.streamType = 3 then parseThreadList file d snap
  else if d.streamType = 4 then parseModuleList file d snap
  else if d.streamType = 9 then parseMemory64List file d snap
  else if d.streamType = 16 then parseMemoryInfoList file d snap
  else if d.streamType = 7 then parseSystemInfo file d snap
  else if d.streamType = 6 then parseException file d snap
  else if d.streamType = 15 then parseMiscInfo file d snap
  else if d.streamType = 12 then parseHandleData file d snap
  else some snap

/-- `minidump_file::parse_streams`: fold the dispatcher over the directory,
aborting the whole parse on the first failing known stream. -/
def parseStreams (file : List Nat) : List Dir → Snapshot → Option Snapshot
  | [], snap => some snap
  | d :: ds, snap => (parseStream file d snap).bind (parseStreams file ds)

/-- `minidump_file::parse` / `parse_internal`: header, then directory, then
streams; any failure yields no snapshot. -/
def parseFile (file : List Nat) : Option Snapshot :=
  (parseHeader file).bind fun h =>
    (parseDirectories file h).bind fun dirs =>
      parseStreams file dirs {emptySnap with header := h, directories := dirs}

/-! ### Memory reader (minidump.cpp) -/

/-- The errors thrown by `minidump_reader::read_memory` and
`memory_segment::read`. -/
inductive ReadErr where
  | notMapped
  | notInSegment
  | crossesBoundary
deriving Repr, DecidableEq

/-- The outcome of a raw byte read (`std::vector<uint8_t>` or a thrown
exception). -/
inductive ReadResult where
  | ok (bytes : List Nat)
  | error (e : ReadErr)
deriving Repr, DecidableEq

/-- `memory_segment::read`: reject an address outside the segment, reject a
read whose (wrapping) end passes the segment's end, otherwise serve
`read_size` bytes starting at file offset
`start_file_address + (virtual_address - start_virtual_address)` (computed in
`uint64_t` arithmetic); bytes past end-of-file read as zero. -/
def Seg.read (s : Seg) (file : List Nat) (a L : Nat) : ReadResult :=
  if a < s.start ∨ s.endVA ≤ a then .error .notInSegment
  else if s.endVA < (a + L) % U64 then .error .crossesBoundary
  else
    let filePos := (s.fileOff + (a - s.start)) % U64
    .ok ((List.range L).map fun i => file.getD (filePos + i) 0)

/-- `minidump_reader::find_memory_segment`: first segment containing the
address. -/
def findSegment (segs : List Seg) (a : Nat) : Option Seg :=
  segs.find? (fun s => s.contains a)

/-- `minidump_reader::read_memory`: resolve the covering segment and delegate
to `memory_segment::read`. -/
def readMemory (segs : List Seg) (file : List Nat) (a L : Nat) : ReadResult :=
  match findSegment segs a with
  | none => .error .notMapped
  | some s => s.read file a L

/-- `minidump_reader::get_architecture`: the system-info architecture tag, or
`unknown` (0xFFFF) when the record is absent. -/
def getArchitecture (si : Option SysInfo) : Nat :=
  match si with
  | some s => s.processorArchitecture
  | none => 0xFFFF

/-- `minidump_reader::is_64bit`: amd64 (9), ia64 (6), arm64 (12) or
aarch64 (15). -/
def is64bit (si : Option SysInfo) : Bool :=
  decide (getArchitecture si = 9 ∨ getArchitecture si = 6 ∨
    getArchitecture si = 12 ∨ getArchitecture si = 15)

/-- `minidump_reader::get_pointer_size`: 8 when 64-bit, else 4. -/
def pointerSize (si : Option SysInfo) : Nat := if is64bit si then 8 else 4

/-- `minidump_reader::read_pointer`: read `pointer_size` bytes and interpret
them little-endian; any read failure becomes `none`. -/
def readPointer (segs : List Seg) (si : Option SysInfo) (file : List Nat)
    (a : Nat) : Option Nat :=
  match readMemory segs file a (pointerSize si) with
  | .ok bs => some (leVal bs)
  | .error _ => none

/-- Truncate a byte string at its first zero byte (`std::find` + `erase`). -/
def truncAtNull (bs : List Nat) : List Nat := bs.takeWhile (· ≠ 0)

/-- `minidump_reader::read_string`: read `max_length` bytes, truncate at the
first zero byte; any read failure becomes the empty string. -/
def readString (segs : List Seg) (file : List Nat) (a maxLen : Nat) : List Nat :=
  match readMemory segs file a maxLen with
  | .ok bs => truncAtNull bs
  | .error _ => []

/-! ### Concrete input files used as test vectors -/

/-- A complete file: valid header, one directory entry (memory64 list at
offset 44), and a memory64 stream whose single pair is
`(start = 2^64 - 1, size = 1)` — the segment end wraps the u64 space. -/
def c10File : List Nat :=
  u32le 0x504D444D ++ u16le 0 ++ u16le 0 ++ u32le 1 ++ u32le 32 ++ u32le 0 ++
    u32le 0 ++ u64le 0 ++
  u32le 9 ++ u32le 0 ++ u32le 44 ++
  u64le 1 ++ u64le 0 ++ u64le (2 ^ 64 - 1) ++ u64le 1

/-- Like `c10File` but with the well-behaved pair `(start = 4096, size = 16)`. -/
def c10WitFile : List Nat :=
  u32le 0x504D444D ++ u16le 0 ++ u16le 0 ++ u32le 1 ++ u32le 32 ++ u32le 0 ++
    u32le 0 ++ u64le 0 ++
  u32le 9 ++ u32le 0 ++ u32le 44 ++
  u64le 1 ++ u64le 0 ++ u64le 4096 ++ u64le 16

/-- The snapshot that parsing `c10WitFile` produces. -/
def c10WitSnap : Snapshot :=
  ⟨⟨0x504D444D, 0, 0, 1, 32, 0, 0, 0⟩, [⟨9, 0, 44⟩], [], [], [⟨4096, 16, 0⟩],
   [], none, none, none, []⟩

/-- A module-list stream (at offset 0) declaring 50000 modules while the file
only holds ten zero-filled 108-byte records. -/
def c3File : List Nat := u32le 50000 ++ List.replicate 1080 0

/-- A module-list stream (at offset 0) with two records; the first record's
`module_name_rva` (5000) points past end-of-file, so the indirect 4-byte
length read fails. -/
def c7FileBad : List Nat :=
  u32le 2 ++ (List.replicate 20 0 ++ u32le 5000 ++ List.replicate 84 0) ++
    List.replicate 108 0

/-- Like `c7FileBad` but the first record's `module_name_rva` (220) points at
an in-file length word (value 0, so the name is merely left empty). -/
def c7FileGood : List Nat :=
  u32le 2 ++ (List.replicate 20 0 ++ u32le 220 ++ List.replicate 84 0) ++
    List.replicate 108 0 ++ u32le 0

/-- A memory64-list stream (at offset 0): count 3, `base_rva` 16, pairs
`(4096, 2^63)`, `(8192, 2^63)`, `(12288, 5)` — the running offset total
reaches 2^64 and wraps. -/
def c5File : List Nat :=
  u64le 3 ++ u64le 16 ++ u64le 4096 ++ u64le (2 ^ 63) ++ u64le 8192 ++
    u64le (2 ^ 63) ++ u64le 12288 ++ u64le 5

/-- A memory64-list stream (at offset 0): count 2, `base_rva` 100, pairs
`(4096, 16)`, `(8192, 32)` — no wrapping anywhere. -/
def c5WitFile : List Nat :=
  u64le 2 ++ u64le 100 ++ u64le 4096 ++ u64le 16 ++ u64le 8192 ++ u64le 32

/-! ### Helper lemmas -/

theorem uSixtyFour_eq : U64 = 18446744073709551616 := by norm_num [U64]

theorem leVal_eq_zero {bs : List Nat} (h : ∀ b ∈ bs, b = 0) : leVal bs = 0 := by
  induction bs with
  | nil => rfl
  | cons b bs ih =>
    have hb : b = 0 := h b (List.mem_cons_self b bs)
    have hbs : leVal bs = 0 := ih fun x hx => h x (List.mem_cons_of_mem b hx)
    simp [leVal] at hbs ⊢
    simp [hb, hbs]

theorem contains_true_iff {s : Seg} {a : Nat} :
    s.contains a = true ↔ s.start ≤ a ∧ a < s.endVA := by
  simp [Seg.contains]

/-- An address satisfying the code's containment test forces the segment's
end not to wrap: otherwise `end_virtual_address()` would be at most `start`. -/
theorem seg_no_wrap_of_contains {s : Seg} {a : Nat} (hs : s.start < U64)
    (hz : s.size < U64) (hc : s.contains a = true) :
    s.start + s.size < U64 ∧ s.endVA = s.start + s.size := by
  rcases contains_true_iff.mp hc with ⟨h1, h2⟩
  unfold Seg.endVA at h2 ⊢
  rw [uSixtyFour_eq] at *
  omega

theorem findSegment_contains {segs : List Seg} {a : Nat} {s : Seg}
    (h : findSegment segs a = some s) : s.contains a = true := by
  unfold findSegment at h
  have hx := List.find?_some h
  simpa using hx

/-- When the requested range provably passes the (non-wrapping) segment end
without the `uint64_t` sum wrapping, `read_memory` throws the
cross-segment-boundary error. -/
theorem readMemory_crosses {segs : List Seg} {file : List Nat} {a L : Nat}
    {s : Seg} (hf : findSegment segs a = some s) (hs : s.start < U64)
    (hz : s.size < U64) (hw : a + L < U64) (hcross : s.start + s.size < a + L) :
    readMemory segs file a L = .error .crossesBoundary := by
  have hc := findSegment_contains hf
  obtain ⟨hnw, hend⟩ := seg_no_wrap_of_contains hs hz hc
  rcases contains_true_iff.mp hc with ⟨h1, h2⟩
  have hnot : ¬(a < s.start ∨ s.endVA ≤ a) := by push_neg; exact ⟨h1, h2⟩
  have hgt : s.endVA < (a + L) % U64 := by
    rw [Nat.mod_eq_of_lt hw, hend]; exact hcross
  simp only [readMemory, hf]
  rw [Seg.read, if_neg hnot, if_pos hgt]

/-- Every segment kept by the memory64-list loop has a positive size (the
`size > 0` filter). -/
theorem mem64Loop_size_pos (file : List Nat) (k : Nat) :
    ∀ (pos cur : Nat) (s : Seg), s ∈ mem64Loop file k pos cur → 0 < s.size := by
  induction k with
  | zero => intro pos cur s h; simp [mem64Loop] at h
  | succ k ih =>
    intro pos cur s h
    simp only [mem64Loop] at h
    split at h
    · split at h
      · rcases List.mem_cons.mp h with h | h
        · subst h; assumption
        · exact ih _ _ _ h
      · exact ih _ _ _ h
    · simp at h

/-- The file offset of the `i`-th segment kept by the memory64-list loop is
the seed offset plus the running total of the sizes of the previously kept
segments, reduced modulo 2^64. -/
theorem mem64Loop_getD_fileOff (file : List Nat) (k : Nat) :
    ∀ (pos cur i : Nat), cur < U64 → i < (mem64Loop file k pos cur).length →
      ((mem64Loop file k pos cur).getD i ⟨0, 0, 0⟩).fileOff =
        (cur + (((mem64Loop file k pos cur).take i).map Seg.size).sum) % U64 := by
  induction k with
  | zero => intro pos cur i _ hi; simp [mem64Loop] at hi
  | succ k ih =>
    intro pos cur i hcur hi
    by_cases hcr : pos + 16 ≤ file.length
    case neg => simp [mem64Loop, hcr] at hi
    by_cases hsz : 0 < u64at file (pos + 8)
    case neg =>
      simp only [mem64Loop, if_pos hcr, if_neg hsz] at hi ⊢
      exact ih _ _ _ hcur hi
    simp only [mem64Loop, if_pos hcr, if_pos hsz] at hi ⊢
    cases i with
    | zero =>
      simp only [List.getD_cons_zero, List.take_zero, List.map_nil,
        List.sum_nil, Nat.add_zero]
      rw [Nat.mod_eq_of_lt hcur]
    | succ i =>
      have hlen : i < (mem64Loop file k (pos + 16)
          ((cur + u64at file (pos + 8)) % U64)).length := by
        simpa using hi
      have hcur2 : (cur + u64at file (pos + 8)) % U64 < U64 := by
        apply Nat.mod_lt
        rw [uSixtyFour_eq]
        omega
      have hrec := ih (pos + 16) ((cur + u64at file (pos + 8)) % U64) i hcur2 hlen
      simp only [List.getD_cons_succ, List.take_succ_cons, List.map_cons,
        List.sum_cons]
      rw [hrec, Nat.mod_add_mod, ← Nat.add_assoc]

/-- One dispatch step only ever adds positive-size segments to the snapshot
(only the memory64 decoder touches `segments`). -/
theorem parseStream_segments {file : List Nat} {d : Dir} {s0 s1 : Snapshot}
    (h : parseStream file d s0 = some s1) :
    ∀ g ∈ s1.segments, g ∈ s0.segments ∨ 0 < g.size := by
  intro g hg
  unfold parseStream at h
  split at h
  · unfold parseThreadList at h
    split at h
    · rcases Option.map_eq_some'.mp h with ⟨ts, _, rfl⟩
      exact Or.inl hg
    · exact absurd h (by simp)
  · split at h
    · unfold parseModuleList at h
      split at h
      · rcases Option.map_eq_some'.mp h with ⟨ms, _, rfl⟩
        exact Or.inl hg
      · exact absurd h (by simp)
    · split at h
      · unfold parseMemory64List at h
        split at h
        · cases h
          rcases List.mem_append.mp hg with hg | hg
          · exact Or.inl hg
          · exact Or.inr (mem64Loop_size_pos file _ _ _ g hg)
        · exact absurd h (by simp)
      · split at h
        · unfold parseMemoryInfoList at h
          split at h
          · split at h
            · cases h; exact Or.inl hg
            · exact absurd h (by simp)
          · exact absurd h (by simp)
        · split at h
          · unfold parseSystemInfo at h
            split at h
            · cases h; exact Or.inl hg
            · exact absurd h (by simp)
          · split at h
            · unfold parseException at h
              split at h
              · cases h; exact Or.inl hg
              · exact absurd h (by simp)
            · split at h
              · unfold parseMiscInfo at h
                split at h
                · cases h; exact Or.inl hg
                · exact absurd h (by simp)
              · split at h
                · unfold parseHandleData at h
                  split at h
                  · cases h; exact Or.inl hg
                  · exact absurd h (by simp)
                · cases h; exact Or.inl hg

/-- Folding the dispatcher preserves "all segments have positive size". -/
theorem parseStreams_size_pos {file : List Nat} :
    ∀ (ds : List Dir) (s0 s1 : Snapshot), parseStreams file ds s0 = some s1 →
      (∀ g ∈ s0.segments, 0 < g.size) → ∀ g ∈ s1.segments, 0 < g.size := by
  intro ds
  induction ds with
  | nil =>
    intro s0 s1 h h0
    cases h
    exact h0
  | cons d ds ih =>
    intro s0 s1 h h0
    rw [parseStreams] at h
    rcases Option.bind_eq_some.mp h with ⟨sm, hsm, hrest⟩
    refine ih sm s1 hrest ?_
    intro g hg
    rcases parseStream_segments hsm g hg with hg0 | hpos
    · exact h0 g hg0
    · exact hpos

theorem leVal_lt_pow {bs : List Nat} (h : ∀ b ∈ bs, b < 256) :
    leVal bs < 256 ^ bs.length := by
  induction bs with
  | nil => simp [leVal]
  | cons b bs ih =>
    have hb := h b (List.mem_cons_self b bs)
    have hbs := ih fun x hx => h x (List.mem_cons_of_mem b hx)
    simp only [leVal, List.foldr_cons, List.length_cons] at *
    have hpow : (256 : Nat) ^ (bs.length + 1) = 256 * 256 ^ bs.length := by ring
    rw [hpow]
    omega

/-- Any `uint64_t` decoded from genuine byte values is below 2^64. -/
theorem u64at_lt {file : List Nat} (h : ∀ b ∈ file, b < 256) (pos : Nat) :
    u64at file pos < U64 := by
  have hb : ∀ b ∈ bytesAt file pos 8, b < 256 := fun b hbm =>
    h b (List.drop_subset _ _ (List.take_subset _ _ hbm))
  have hlen : (bytesAt file pos 8).length ≤ 8 := by
    simp [bytesAt]
  unfold u64at
  calc leVal (bytesAt file pos 8) < 256 ^ (bytesAt file pos 8).length :=
        leVal_lt_pow hb
    _ ≤ 256 ^ 8 := Nat.pow_le_pow_right (by norm_num) hlen
    _ = U64 := by norm_num [U64]

/-! ### Claim theorems -/

/-- C1 (counterexample): a segment whose end wraps the u64 address space
satisfies the claim's hypotheses at `a = 2^64 - 1`, `L = 1`, yet
`memory_segment::read` throws "Virtual address not in this segment" instead
of succeeding, because `end_virtual_address()` wraps to 2. -/
theorem C1_counterexample :
    ((2 ^ 64 - 2 ≤ 2 ^ 64 - 1) ∧ (2 ^ 64 - 1 < 2 ^ 64 - 2 + 4) ∧
      (2 ^ 64 - 1 + 1 ≤ 2 ^ 64 - 2 + 4)) ∧
    Seg.read ⟨2 ^ 64 - 2, 4, 0⟩ [] (2 ^ 64 - 1) 1 = .error .notInSegment :=
  ⟨by decide, by decide⟩

/-- C1 (amended): for every segment whose end does not wrap the u64 address
space, every address `a` with `start ≤ a < start + size` and length `L` with
`a + L ≤ start + size`, the raw read succeeds and returns exactly `L` bytes
taken from file offset `(file_offset + (a - start)) mod 2^64`. -/
theorem C1_amended (s : Seg) (file : List Nat) (a L : Nat)
    (hnw : s.start + s.size < U64) (h1 : s.start ≤ a)
    (h2 : a < s.start + s.size) (h3 : a + L ≤ s.start + s.size) :
    s.read file a L =
      .ok ((List.range L).map fun i =>
        file.getD ((s.fileOff + (a - s.start)) % U64 + i) 0) := by
  have hend : s.endVA = s.start + s.size := Nat.mod_eq_of_lt hnw
  have hnot : ¬(a < s.start ∨ s.endVA ≤ a) := by
    push_neg
    exact ⟨h1, by rw [hend]; exact h2⟩
  have hnot2 : ¬(s.endVA < (a + L) % U64) := by
    rw [hend, Nat.mod_eq_of_lt (lt_of_le_of_lt h3 hnw)]
    exact not_lt.mpr h3
  rw [Seg.read, if_neg hnot, if_neg hnot2]

theorem C1_witness :
    ((0 : Nat) + 8 < U64 ∧ (0 : Nat) ≤ 2 ∧ (2 : Nat) < 0 + 8 ∧
      (2 : Nat) + 3 ≤ 0 + 8) ∧
    Seg.read ⟨0, 8, 100⟩ (List.replicate 120 7) 2 3 =
      .ok ((List.range 3).map fun i =>
        (List.replicate 120 7).getD ((100 + (2 - 0)) % U64 + i) 0) :=
  ⟨by decide,
   C1_amended ⟨0, 8, 100⟩ (List.replicate 120 7) 2 3 (by decide) (by decide)
     (by decide) (by decide)⟩

/-- C2 (counterexample): with a segment `[0, 100)` and the length
`2^64 - 10` at `a = 10`, the claim's hypotheses hold (the range passes far
beyond the segment's end), yet the `uint64_t` sum `a + L` wraps to 0, the
boundary check is bypassed, and no cross-segment-boundary error is raised. -/
theorem C2_counterexample :
    findSegment [⟨0, 100, 0⟩] 10 = some ⟨0, 100, 0⟩ ∧
    ((0 : Nat) + 100 < 10 + (2 ^ 64 - 10)) ∧
    readMemory [⟨0, 100, 0⟩] [] 10 (2 ^ 64 - 10) ≠ .error .crossesBoundary := by
  refine ⟨by decide, by decide, ?_⟩
  have hf : findSegment [(⟨0, 100, 0⟩ : Seg)] 10 = some ⟨0, 100, 0⟩ := by decide
  have hn : ¬(10 < (Seg.mk 0 100 0).start ∨ (Seg.mk 0 100 0).endVA ≤ 10) := by
    decide
  have hn2 : ¬((Seg.mk 0 100 0).endVA < (10 + (2 ^ 64 - 10)) % U64) := by decide
  intro hcontra
  simp only [readMemory, hf] at hcontra
  rw [Seg.read, if_neg hn, if_neg hn2] at hcontra
  exact ReadResult.noConfusion hcontra

/-- C2 (amended): whenever the first segment containing `a` ends before
`a + L` and the `uint64_t` sum `a + L` does not wrap 2^64, the raw read fails
with the cross-segment-boundary error — regardless of whatever other segments
exist, so a read is never stitched across two segments. -/
theorem C2_amended (segs : List Seg) (file : List Nat) (a L : Nat) (s : Seg)
    (hf : findSegment segs a = some s) (hs : s.start < U64) (hz : s.size < U64)
    (hw : a + L < U64) (hcross : s.start + s.size < a + L) :
    readMemory segs file a L = .error .crossesBoundary :=
  readMemory_crosses hf hs hz hw hcross

theorem C2_witness :
    findSegment [⟨0, 100, 0⟩] 10 = some ⟨0, 100, 0⟩ ∧
    ((0 : Nat) + 100 < 10 + 91) ∧
    readMemory [⟨0, 100, 0⟩] [] 10 91 = .error .crossesBoundary :=
  ⟨by decide, by decide,
   C2_amended [⟨0, 100, 0⟩] [] 10 91 ⟨0, 100, 0⟩ (by decide) (by decide)
     (by decide) (by decide) (by decide)⟩

/-- C9 (counterexample): for a segment `[2^64 - 16, 2^64 - 8)` and
`max_length = 32` at `a = 2^64 - 16` there are only 8 bytes to the segment's
end, yet `a + max_length` wraps to 16, the boundary check is bypassed, the
read succeeds, and `read_string` returns "AB" rather than the empty string. -/
theorem C9_counterexample :
    findSegment [⟨2 ^ 64 - 16, 8, 0⟩] (2 ^ 64 - 16) = some ⟨2 ^ 64 - 16, 8, 0⟩ ∧
    (2 ^ 64 - 16) + 8 < (2 ^ 64 - 16) + 32 ∧
    readString [⟨2 ^ 64 - 16, 8, 0⟩] [65, 66] (2 ^ 64 - 16) 32 = [65, 66] ∧
    ([65, 66] : List Nat) ≠ [] :=
  ⟨by decide, by decide, by decide, by decide⟩

/-- C9 (amended): whenever the first segment containing `a` holds fewer than
`max_length` bytes from `a` to its end and `a + max_length` does not wrap
2^64, `read_string` returns the empty string, whatever the mapped bytes
contain. -/
theorem C9_amended (segs : List Seg) (file : List Nat) (a maxLen : Nat)
    (s : Seg) (hf : findSegment segs a = some s) (hs : s.start < U64)
    (hz : s.size < U64) (hw : a + maxLen < U64)
    (hcross : s.start + s.size < a + maxLen) :
    readString segs file a maxLen = [] := by
  have hr : readMemory segs file a maxLen = .error .crossesBoundary :=
    readMemory_crosses hf hs hz hw hcross
  simp only [readString, hr]

theorem C9_witness :
    findSegment [⟨0, 100, 0⟩] 10 = some ⟨0, 100, 0⟩ ∧
    ((0 : Nat) + 100 < 10 + 95) ∧
    readString [⟨0, 100, 0⟩] [65, 66] 10 95 = [] :=
  ⟨by decide, by decide,
   C9_amended [⟨0, 100, 0⟩] [65, 66] 10 95 ⟨0, 100, 0⟩ (by decide) (by decide)
     (by decide) (by decide) (by decide)⟩

set_option maxRecDepth 40000 in
/-- C3 (code evaluated at the failing input): a module-list stream declaring
50000 modules over a ten-record file makes the decoder allocate the full
50000-element vector (no 10000 ceiling is applied) and then abort the whole
parse at the eleventh short read, instead of silently decoding up to a
ceiling. -/
theorem C3_module_list_uncapped :
    moduleListAllocation c3File ⟨4, 0, 0⟩ = some 50000 ∧
    10000 < 50000 ∧
    parseModuleList c3File ⟨4, 0, 0⟩ emptySnap = none :=
  ⟨by decide, by decide, by decide⟩

/-- C4: parse yields a snapshot only when the header's signature equals the
format magic and the stream count is nonzero; any header violating either
condition makes the whole parse fail with no snapshot. -/
theorem C4_header_gate (file : List Nat) :
    (∀ snap, parseFile file = some snap →
      (decodeHeader file).signature = expectedSignature ∧
        0 < (decodeHeader file).numberOfStreams) ∧
    (((decodeHeader file).signature ≠ expectedSignature ∨
        (decodeHeader file).numberOfStreams = 0) → parseFile file = none) := by
  constructor
  · intro snap hp
    by_cases hlen : 32 ≤ file.length
    · by_cases hval : (decodeHeader file).isValid = true
      · unfold Header.isValid at hval
        exact of_decide_eq_true hval
      · simp [parseFile, parseHeader, hlen, hval] at hp
    · simp [parseFile, parseHeader, hlen] at hp
  · intro hbad
    by_cases hlen : 32 ≤ file.length
    · by_cases hval : (decodeHeader file).isValid = true
      · exfalso
        have hv : (decodeHeader file).signature = expectedSignature ∧
            0 < (decodeHeader file).numberOfStreams := by
          unfold Header.isValid at hval
          exact of_decide_eq_true hval
        rcases hbad with hb | hb
        · exact hb hv.1
        · omega
      · simp [parseFile, parseHeader, hlen, hval]
    · simp [parseFile, parseHeader, hlen]

theorem C4_witness :
    ((decodeHeader []).signature ≠ expectedSignature ∨
      (decodeHeader []).numberOfStreams = 0) ∧
    parseFile [] = none :=
  ⟨Or.inl (by decide), (C4_header_gate []).2 (Or.inl (by decide))⟩

/-- C5 (counterexample): in a memory64 stream with `base_rva = 16` and pairs
of sizes 2^63, 2^63, 5, the third decoded segment's file offset is 16 (the
`uint64_t` running total wrapped), not `base + 2^63 + 2^63 = 16 + 2^64`. -/
theorem C5_counterexample :
    (parsedMem64Segs c5File ⟨9, 0, 0⟩).map Seg.fileOff = [16, 16 + 2 ^ 63, 16] ∧
    u64at c5File 8 + (((parsedMem64Segs c5File ⟨9, 0, 0⟩).take 2).map
      Seg.size).sum = 16 + 2 ^ 64 ∧
    (16 : Nat) ≠ 16 + 2 ^ 64 :=
  ⟨by decide, by decide, by decide⟩

/-- C5 (amended): in every decoded memory64-list stream the `i`-th decoded
segment's file offset equals `base_file_offset` plus the running total of the
sizes of the previously decoded segments, reduced modulo 2^64. -/
theorem C5_amended (file : List Nat) (d : Dir) (i : Nat)
    (hbytes : ∀ b ∈ file, b < 256) (_hhdr : d.rva + 16 ≤ file.length)
    (hi : i < (parsedMem64Segs file d).length) :
    ((parsedMem64Segs file d).getD i ⟨0, 0, 0⟩).fileOff =
      (u64at file (d.rva + 8) +
        (((parsedMem64Segs file d).take i).map Seg.size).sum) % U64 := by
  unfold parsedMem64Segs at hi ⊢
  exact mem64Loop_getD_fileOff file _ _ _ i (u64at_lt hbytes _) hi

theorem C5_witness :
    (∀ b ∈ c5WitFile, b < 256) ∧ (0 : Nat) + 16 ≤ c5WitFile.length ∧
    1 < (parsedMem64Segs c5WitFile ⟨9, 0, 0⟩).length ∧
    ((parsedMem64Segs c5WitFile ⟨9, 0, 0⟩).getD 1 ⟨0, 0, 0⟩).fileOff =
      (u64at c5WitFile 8 +
        (((parsedMem64Segs c5WitFile ⟨9, 0, 0⟩).take 1).map Seg.size).sum) %
          U64 :=
  ⟨by decide, by decide, by decide,
   C5_amended c5WitFile ⟨9, 0, 0⟩ 1 (by decide) (by decide) (by decide)⟩

/-- C6: the reader's pointer width is 8 exactly when the system-info record
is present with architecture tag amd64 (9), ia64 (6), arm64 (12) or
aarch64 (15); in every other case — including an absent record — it is 4. -/
theorem C6_pointer_width (snap : Snapshot) :
    (pointerSize snap.sysInfo = 8 ↔
      ∃ si, snap.sysInfo = some si ∧
        (si.processorArchitecture = 9 ∨ si.processorArchitecture = 6 ∨
         si.processorArchitecture = 12 ∨ si.processorArchitecture = 15)) ∧
    (snap.sysInfo = none → pointerSize snap.sysInfo = 4) ∧
    (pointerSize snap.sysInfo = 8 ∨ pointerSize snap.sysInfo = 4) := by
  cases hsi : snap.sysInfo with
  | none =>
    refine ⟨⟨fun h8 => ?_, fun hex => ?_⟩, fun _ => by decide, Or.inr (by decide)⟩
    · exact absurd h8 (by decide)
    · rcases hex with ⟨si, heq, _⟩
      exact Option.noConfusion heq
  | some si =>
    by_cases h64 : si.processorArchitecture = 9 ∨ si.processorArchitecture = 6 ∨
        si.processorArchitecture = 12 ∨ si.processorArchitecture = 15
    · have hps : pointerSize (some si) = 8 := by
        simp [pointerSize, is64bit, getArchitecture, h64]
      exact ⟨⟨fun _ => ⟨si, rfl, h64⟩, fun _ => hps⟩,
        fun hn => Option.noConfusion hn, Or.inl hps⟩
    · have hps : pointerSize (some si) = 4 := by
        simp [pointerSize, is64bit, getArchitecture, h64]
      refine ⟨⟨fun h8 => ?_, fun hex => ?_⟩,
        fun hn => Option.noConfusion hn, Or.inr hps⟩
      · rw [hps] at h8
        exact absurd h8 (by norm_num)
      · rcases hex with ⟨si2, heq, harch⟩
        cases Option.some.inj heq
        exact absurd harch h64

theorem C6_witness :
    pointerSize (Snapshot.sysInfo
      {emptySnap with sysInfo := some ⟨9, 0, 0, 0, 0, 0, 0, 0, 0, 0, 0, 0, 0⟩}) = 8 ∧
    pointerSize (Snapshot.sysInfo emptySnap) = 4 :=
  ⟨(C6_pointer_width _).1.mpr ⟨⟨9, 0, 0, 0, 0, 0, 0, 0, 0, 0, 0, 0, 0⟩, rfl,
      Or.inl rfl⟩,
   (C6_pointer_width emptySnap).2.1 rfl⟩

set_option maxRecDepth 40000 in
/-- C7 (code evaluated at the failing input): when a module's indirect name
read fails (its name offset points past end-of-file), the stream's failbit is
sticky, the restoring `seekg` is a no-op, the next module's record read
fails, and the whole module-list parse returns failure — instead of the
cursor being restored and the second module decoding correctly, as it does
when the indirect read merely finds a zero length. -/
theorem C7_cursor_not_restored :
    parseModuleList c7FileBad ⟨4, 0, 0⟩ emptySnap = none ∧
    (parseModuleList c7FileGood ⟨4, 0, 0⟩ emptySnap).map
      (fun sn => sn.modules.length) = some 2 :=
  ⟨by decide, by decide⟩

/-- C8: `read_pointer` never propagates a read failure: an unmapped address
yields `none`, any failing byte read yields `none`, and a successful read of
all-zero bytes yields the value 0 (not `none`). -/
theorem C8_read_pointer (segs : List Seg) (si : Option SysInfo)
    (file : List Nat) (a : Nat) :
    (findSegment segs a = none → readPointer segs si file a = none) ∧
    (∀ bs, readMemory segs file a (pointerSize si) = .ok bs →
      (∀ b ∈ bs, b = 0) → readPointer segs si file a = some 0) ∧
    (∀ e, readMemory segs file a (pointerSize si) = .error e →
      readPointer segs si file a = none) := by
  refine ⟨?_, ?_, ?_⟩
  · intro hnone
    have h : readMemory segs file a (pointerSize si) = .error .notMapped := by
      simp only [readMemory, hnone]
    simp only [readPointer, h]
  · intro bs hok hz
    simp only [readPointer, hok]
    simp [leVal_eq_zero hz]
  · intro e he
    simp only [readPointer, he]

theorem C8_witness :
    readPointer [⟨4096, 256, 0⟩] none (List.replicate 8 0) 4096 = some 0 ∧
    readPointer [⟨4096, 256, 0⟩] none (List.replicate 8 0) 9999 = none :=
  ⟨(C8_read_pointer [⟨4096, 256, 0⟩] none (List.replicate 8 0) 4096).2.1
      [0, 0, 0, 0] (by decide) (by decide),
   (C8_read_pointer [⟨4096, 256, 0⟩] none (List.replicate 8 0) 9999).1
      (by decide)⟩

/-- C10 (counterexample): parsing a complete file whose memory64 stream holds
the pair `(2^64 - 1, 1)` stores a segment that does not contain its own start
address, because `end_virtual_address()` wraps to 0. -/
theorem C10_counterexample :
    (parseFile c10File).map (fun sn => sn.segments) = some [⟨2 ^ 64 - 1, 1, 0⟩] ∧
    Seg.contains ⟨2 ^ 64 - 1, 1, 0⟩ (2 ^ 64 - 1) = false :=
  ⟨by decide, by decide⟩

/-- C10 (amended): every memory segment stored by a successful parse has a
positive size, and every stored segment whose end does not wrap the u64
address space contains its own start address. -/
theorem C10_amended (file : List Nat) (snap : Snapshot)
    (hp : parseFile file = some snap) :
    ∀ s ∈ snap.segments, 0 < s.size ∧
      (s.start + s.size < U64 → s.contains s.start = true) := by
  have hpos : ∀ s ∈ snap.segments, 0 < s.size := by
    unfold parseFile at hp
    rcases Option.bind_eq_some.mp hp with ⟨h0, hh, hp2⟩
    rcases Option.bind_eq_some.mp hp2 with ⟨dirs, hd, hp3⟩
    refine parseStreams_size_pos dirs _ snap hp3 ?_
    intro g hg
    simp [emptySnap] at hg
  intro s hs
  refine ⟨hpos s hs, fun hnw => ?_⟩
  refine contains_true_iff.mpr ⟨le_refl _, ?_⟩
  unfold Seg.endVA
  rw [Nat.mod_eq_of_lt hnw]
  have := hpos s hs
  omega

theorem C10_witness :
    0 < (Seg.mk 4096 16 0).size ∧
    ((Seg.mk 4096 16 0).start + (Seg.mk 4096 16 0).size < U64 →
      Seg.contains ⟨4096, 16, 0⟩ (Seg.mk 4096 16 0).start = true) :=
  C10_amended c10WitFile c10WitSnap (by decide) ⟨4096, 16, 0⟩ (by decide)

end Minidump
